import Mathlib

/-!
# cluster/mesos/task.go

A shallow embedding of `task.go` of the Mesos back end: the task descriptor
builder (`build`), the constructor (`newTask`), the identity accessor (`ID`)
and the status monitor (`getStatus`, `monitor`).

Conventions of the embedding.

* A Go pointer that may be nil is an `Option`; the generated protobuf getters
  (`GetState`, `GetMessage`, `GetValue`) return the field's default on nil.
* Go's `int64` is `Int`; the statements that depend on the range carry it as
  a hypothesis. Division is `Int.tdiv`, Go's truncating division.
* A `float64` that is the conversion of an `int64` is an integer; the scalar
  of a resource holds its exact value as an `Int`, and `float64` is the
  conversion, rounding to a 53 bit significand.
* Go's `error` is `Option String`: `none` is nil, `some text` is the value
  made by `errors.New text`.
* The unbuffered channel `updates` is the list of the statuses that the
  producer hands over, in the order of sending; a receive takes the head,
  and a receive on the empty list blocks (`none`).
* A Go map is an association list; the order of the list stands for the
  order in which one run of `range` visits the entries, which Go leaves
  unspecified, so statements about what a `range` built hold up to
  permutation.
-/

namespace Mesos

/-! ## Types of `mesosproto` used by the file -/

/-- The enum `mesosproto.TaskState`, an `int32` on the wire. -/
abbrev TaskState := Int

def TaskState_TASK_STAGING : TaskState := 6
def TaskState_TASK_STARTING : TaskState := 0
def TaskState_TASK_RUNNING : TaskState := 1
def TaskState_TASK_FINISHED : TaskState := 2
def TaskState_TASK_FAILED : TaskState := 3
def TaskState_TASK_KILLED : TaskState := 4
def TaskState_TASK_LOST : TaskState := 5
def TaskState_TASK_ERROR : TaskState := 7

/-- The fields of `mesosproto.TaskStatus` that `monitor` reads. -/
structure TaskStatus where
  State : Option TaskState
  Message : Option String
  deriving DecidableEq, Repr

/-- Generated getter: the state, or `TASK_STAGING` on a nil receiver or field. -/
def TaskStatus.GetState (m : Option TaskStatus) : TaskState :=
  match m with
  | some s =>
    match s.State with
    | some st => st
    | none => TaskState_TASK_STAGING
  | none => TaskState_TASK_STAGING

/-- Generated getter: the message, or the empty string on a nil receiver or field. -/
def TaskStatus.GetMessage (m : Option TaskStatus) : String :=
  match m with
  | some s =>
    match s.Message with
    | some msg => msg
    | none => ""
  | none => ""

structure TaskID where
  Value : Option String
  deriving DecidableEq, Repr

/-- Generated getter: the value, or the empty string on a nil receiver or field. -/
def TaskID.GetValue (m : Option TaskID) : String :=
  match m with
  | some i =>
    match i.Value with
    | some v => v
    | none => ""
  | none => ""

structure SlaveID where
  Value : Option String
  deriving DecidableEq, Repr

structure CommandInfo where
  Shell : Option Bool
  Value : Option String
  Arguments : List String
  deriving DecidableEq, Repr

inductive ContainerInfo_Type where
  | DOCKER
  | MESOS
  deriving DecidableEq, Repr

inductive ContainerInfo_DockerInfo_Network where
  | HOST
  | BRIDGE
  | NONE
  deriving DecidableEq, Repr

structure Parameter where
  Key : Option String
  Value : Option String
  deriving DecidableEq, Repr

structure ContainerInfo_DockerInfo where
  Image : Option String
  Network : Option ContainerInfo_DockerInfo_Network
  Parameters : List Parameter
  deriving DecidableEq, Repr

structure ContainerInfo where
  Type_ : Option ContainerInfo_Type
  Docker : Option ContainerInfo_DockerInfo
  deriving DecidableEq, Repr

inductive Value_Type where
  | SCALAR
  | RANGES
  | SET
  | TEXT
  deriving DecidableEq, Repr

/-- The scalar of a resource: a `float64`, held as its exact integer value. -/
structure Value_Scalar where
  Value : Option Int
  deriving DecidableEq, Repr

structure Resource where
  Name : Option String
  Type_ : Option Value_Type
  Scalar : Option Value_Scalar
  deriving DecidableEq, Repr

/-- The function `mesosutil.NewScalarResource`. -/
def NewScalarResource (name : String) (val : Int) : Resource :=
  { Name := some name, Type_ := some Value_Type.SCALAR, Scalar := some { Value := some val } }

/-- Generated getter: the name, or the empty string when unset. -/
def Resource.GetName (r : Resource) : String :=
  match r.Name with
  | some n => n
  | none => ""

/-- Generated getters `GetScalar().GetValue()`: the scalar, or zero when unset. -/
def Resource.GetScalarValue (r : Resource) : Int :=
  match r.Scalar with
  | some s =>
    match s.Value with
    | some v => v
    | none => 0
  | none => 0

/-! ## Conversion of an `int64` to `float64` -/

/-- Number of binary digits of `a`, for `a` below `2 ^ fuel`. -/
def bitLenAux : Nat → Nat → Nat
  | 0, _ => 0
  | fuel + 1, a => if a = 0 then 0 else bitLenAux fuel (a / 2) + 1

/-- Number of binary digits of the magnitude of an `int64`. -/
def bitLen (a : Nat) : Nat := bitLenAux 64 a

/-- The magnitude `a` rounded to a significand of 53 bits, ties to even. -/
def roundSig (a : Nat) : Nat :=
  let e := bitLen a - 53
  let q := a / 2 ^ e
  let r := a % 2 ^ e
  let half := 2 ^ e / 2
  if r > half ∨ (r = half ∧ e ≠ 0 ∧ q % 2 = 1) then (q + 1) * 2 ^ e else q * 2 ^ e

/-- The Go conversion `float64(x)` of an `int64`, as the exact value of the result. -/
def float64 (x : Int) : Int :=
  if x < 0 then -((roundSig x.natAbs : Nat) : Int) else ((roundSig x.natAbs : Nat) : Int)

/-! ## The container configuration (`cluster.ContainerConfig`) -/

structure HostConfig where
  NetworkMode : String
  deriving DecidableEq, Repr

/-- The fields of `cluster.ContainerConfig` that the file reads or writes. -/
structure ContainerConfig where
  Image : String
  Cmd : List String
  CpuShares : Int
  Memory : Int
  Labels : List (String × String)
  HostConfig : HostConfig
  deriving DecidableEq, Repr

/-- The map assignment `m[key] = value`. -/
def mapSet : List (String × String) → String → String → List (String × String)
  | [], key, value => [(key, value)]
  | (k, v) :: rest, key, value =>
    if k = key then (k, value) :: rest else (k, v) :: mapSet rest key value

/-- Modelled from the spec: the method `ContainerConfig.SetNamespacedLabel` is
declared in another file of the package `cluster`; the spec says that it records
the value in the label set of the specification "under a reserved key". The
reserved key that belongs to a short key is the parameter `reserved`. -/
def ContainerConfig.SetNamespacedLabel (reserved : String → String) (c : ContainerConfig)
    (key value : String) : ContainerConfig :=
  { c with Labels := mapSet c.Labels (reserved key) value }

/-! ## The task -/

/-- Go's `error`. -/
abbrev error := Option String

/-- The function `errors.New`. -/
def errors.New (text : String) : error := some text

/-- The struct `task`: the fields of the embedded `mesosproto.TaskInfo` that the
file touches, the channel `updates` and the configuration. The fields `cluster`,
`error` and `container` are carried along untouched by every function here and
are left out. -/
structure task where
  Name : Option String
  TaskId : Option TaskID
  SlaveId : Option SlaveID
  Resources : List Resource
  Command : Option CommandInfo
  Container : Option ContainerInfo
  updates : List (Option TaskStatus)
  config : ContainerConfig
  deriving DecidableEq, Repr

/-- The method `ID`. -/
def task.ID (t : task) : String :=
  TaskID.GetValue t.TaskId

/-- The switch on the network mode (lines 45 to 56); the default branch logs
and takes the bridge as well. -/
def networkOf (mode : String) : ContainerInfo_DockerInfo_Network :=
  if mode = "none" then ContainerInfo_DockerInfo_Network.NONE
  else if mode = "host" then ContainerInfo_DockerInfo_Network.HOST
  else if mode = "bridge" ∨ mode = "" then ContainerInfo_DockerInfo_Network.BRIDGE
  else ContainerInfo_DockerInfo_Network.BRIDGE

/-- The loop over the labels (lines 74 to 76): one append per entry visited. -/
def appendLabels (params : List Parameter) : List (String × String) → List Parameter
  | [] => params
  | (key, value) :: rest =>
    appendLabels (params ++ [{ Key := some "label", Value := some (key ++ "=" ++ value) }]) rest

/-- The method `build`. -/
def task.build (t : task) (slaveID : String) : task :=
  let command : CommandInfo := { Shell := some false, Value := none, Arguments := [] }
  let docker : ContainerInfo_DockerInfo :=
    { Image := some t.config.Image, Network := none, Parameters := [] }
  let docker := { docker with Network := some (networkOf t.config.HostConfig.NetworkMode) }
  let resources := t.Resources
  let resources :=
    if t.config.CpuShares > 0 then
      resources ++ [NewScalarResource "cpus" (float64 t.config.CpuShares)]
    else resources
  let resources :=
    if t.config.Memory > 0 then
      resources ++ [NewScalarResource "mem" (float64 ((t.config.Memory.tdiv 1024).tdiv 1024))]
    else resources
  let command :=
    match t.config.Cmd with
    | first :: _ => if first ≠ "" then { command with Value := some first } else command
    | [] => command
  let command :=
    if t.config.Cmd.length > 1 then { command with Arguments := t.config.Cmd.drop 1 }
    else command
  let docker := { docker with Parameters := appendLabels docker.Parameters t.config.Labels }
  { t with
    Command := some command
    Container := some { Type_ := some ContainerInfo_Type.DOCKER, Docker := some docker }
    Resources := resources
    SlaveId := some { Value := some slaveID } }

/-- The function `newTask`. The receiver `c` is only stored; `randomID` is the
value of `stringid.TruncateID(stringid.GenerateRandomID())` in this call. The
channels are made empty, the embedded `TaskInfo` starts as the zero value. -/
def newTask (reserved : String → String) (config : ContainerConfig) (name : String)
    (randomID : String) : task × error :=
  let config := config.SetNamespacedLabel reserved "mesos.name" name
  let t : task :=
    { Name := none, TaskId := none, SlaveId := none, Resources := [], Command := none,
      Container := none, updates := [], config := config }
  let ID := randomID
  let ID := if name ≠ "" then name ++ "." ++ ID else ID
  let t := { t with Name := some name }
  let t := { t with TaskId := some { Value := some ID } }
  (t, none)

/-- The method `sendStatus`: the status joins the ones handed over. -/
def task.sendStatus (t : task) (status : Option TaskStatus) : task :=
  { t with updates := t.updates ++ [status] }

/-- The method `getStatus`: the next status, or `none` while nothing was sent. -/
def task.getStatus (t : task) : Option (Option TaskStatus × task) :=
  match t.updates with
  | [] => none
  | status :: rest => some (status, { t with updates := rest })

/-- The method `monitor`: one receive, then the switch on the state. The cases
`STAGING`, `STARTING` and `RUNNING` have empty bodies and leave the switch. -/
def task.monitor (t : task) : Option ((Bool × error) × task) :=
  match t.getStatus with
  | none => none
  | some (taskStatus, t) =>
    let state := TaskStatus.GetState taskStatus
    if state = TaskState_TASK_STAGING then some ((false, none), t)
    else if state = TaskState_TASK_STARTING then some ((false, none), t)
    else if state = TaskState_TASK_RUNNING then some ((false, none), t)
    else if state = TaskState_TASK_FINISHED then some ((true, none), t)
    else if state = TaskState_TASK_FAILED then
      some ((true, errors.New (TaskStatus.GetMessage taskStatus)), t)
    else if state = TaskState_TASK_KILLED then some ((true, none), t)
    else if state = TaskState_TASK_LOST then
      some ((true, errors.New (TaskStatus.GetMessage taskStatus)), t)
    else if state = TaskState_TASK_ERROR then
      some ((true, errors.New (TaskStatus.GetMessage taskStatus)), t)
    else some ((false, none), t)

/-! ## Observations on a task -/

/-- The network of the descriptor, `t.Container.GetDocker().Network`. -/
def task.network (t : task) : Option ContainerInfo_DockerInfo_Network :=
  match t.Container with
  | some c =>
    match c.Docker with
    | some d => d.Network
    | none => none
  | none => none

/-- The runtime parameters of the descriptor, `t.Container.GetDocker().GetParameters()`. -/
def task.parameters (t : task) : List Parameter :=
  match t.Container with
  | some c =>
    match c.Docker with
    | some d => d.Parameters
    | none => []
  | none => []

/-- The resource claims of the descriptor that carry the given name. -/
def task.claims (t : task) (name : String) : List Resource :=
  t.Resources.filter (fun r => r.GetName = name)

/-- The configuration with another CPU share count. -/
def ContainerConfig.withCpuShares (c : ContainerConfig) (cpus : Int) : ContainerConfig :=
  { c with CpuShares := cpus }

/-- The configuration with another memory limit. -/
def ContainerConfig.withMemory (c : ContainerConfig) (mem : Int) : ContainerConfig :=
  { c with Memory := mem }

/-- The task with another network mode in its configuration. -/
def task.withNetworkMode (t : task) (mode : String) : task :=
  { t with config := { t.config with HostConfig := { NetworkMode := mode } } }

/-- The task with another command vector in its configuration. -/
def task.withCmd (t : task) (cmd : List String) : task :=
  { t with config := { t.config with Cmd := cmd } }

/-- The task with another label set in its configuration. -/
def task.withLabels (t : task) (labels : List (String × String)) : task :=
  { t with config := { t.config with Labels := labels } }

/-- The task with another memory limit in its configuration. -/
def task.withMemory (t : task) (mem : Int) : task :=
  { t with config := t.config.withMemory mem }

/-- The task with the given statuses waiting on its channel. -/
def task.withUpdates (t : task) (updates : List (Option TaskStatus)) : task :=
  { t with updates := updates }

/-- A configuration to evaluate the functions on. -/
def sampleConfig : ContainerConfig :=
  { Image := "busybox", Cmd := ["/bin/sh", "-c", "echo hi"], CpuShares := 2,
    Memory := 2147483648, Labels := [("env", "prod")],
    HostConfig := { NetworkMode := "weird" } }

/-- A freshly constructed task to evaluate the functions on. -/
def sampleTask : task :=
  (newTask (fun key => "com.docker.swarm." ++ key) sampleConfig "web" "0123456789ab").1

/-- The task that `newTask` returns, built against a node. -/
def freshBuild (reserved : String → String) (config : ContainerConfig) (name randomID : String)
    (slaveID : String) : task :=
  (newTask reserved config name randomID).1.build slaveID

/-- The claims that `build` appends for a configuration (lines 58 to 64). -/
def appendedClaims (config : ContainerConfig) : List Resource :=
  (if config.CpuShares > 0 then [NewScalarResource "cpus" (float64 config.CpuShares)] else []) ++
  (if config.Memory > 0 then
    [NewScalarResource "mem" (float64 ((config.Memory.tdiv 1024).tdiv 1024))] else [])

/-- The state is one of the five terminal states of the switch. -/
def isTerminalState (state : TaskState) : Prop :=
  state = TaskState_TASK_FINISHED ∨ state = TaskState_TASK_KILLED ∨
    state = TaskState_TASK_FAILED ∨ state = TaskState_TASK_LOST ∨
    state = TaskState_TASK_ERROR

instance (state : TaskState) : Decidable (isTerminalState state) := by
  unfold isTerminalState; infer_instance

/-- The state is one of the three failure states of the switch. -/
def isFailureState (state : TaskState) : Prop :=
  state = TaskState_TASK_FAILED ∨ state = TaskState_TASK_LOST ∨
    state = TaskState_TASK_ERROR

instance (state : TaskState) : Decidable (isFailureState state) := by
  unfold isFailureState; infer_instance

/-- The map lookup `m[key]`: the value of the entry, or `none` when absent. -/
def mapGet : List (String × String) → String → Option String
  | [], _ => none
  | (k, v) :: rest, key => if k = key then some v else mapGet rest key

/-- The task with another CPU share count in its configuration. -/
def task.withCpuShares (t : task) (cpus : Int) : task :=
  { t with config := t.config.withCpuShares cpus }

/-- The task with another prior resource list. -/
def task.withResources (t : task) (resources : List Resource) : task :=
  { t with Resources := resources }

/-- The method `build` in a run whose `range` over the labels visits the
entries in the order `visit`, a permutation of the label set; `build` itself is
the run that visits them in the order of the list. -/
def task.buildVisiting (t : task) (slaveID : String) (visit : List (String × String)) : task :=
  { (t.withLabels visit).build slaveID with config := t.config }

/-- The pair that `monitor` returns for a status, as a table over its state:
terminal or not, and the message as the error for the failure states. -/
def classification (ev : Option TaskStatus) : Bool × error :=
  (decide (isTerminalState (TaskStatus.GetState ev)),
    if isFailureState (TaskStatus.GetState ev) then some (TaskStatus.GetMessage ev) else none)

/-- Modelled from the spec: the loop of the caller is in another file of the
package; the spec says that "callers loop until `isTerminal` is true". The loop
calls `monitor` at most `fuel` times, records the pair of every call, and stops
after the first call that reports terminal; it returns the pairs and the task
as that call left it. A call that would block for ever yields `none`. -/
def monitorUntilTerminal : Nat → task → List (Bool × error) → Option (List (Bool × error) × task)
  | 0, _, _ => none
  | fuel + 1, t, trace =>
    match t.monitor with
    | none => none
    | some (r, t) =>
      if r.1 = true then some (trace ++ [r], t)
      else monitorUntilTerminal fuel t (trace ++ [r])

/-- The image of the container binding, `t.Container.GetDocker().Image`. -/
def task.image (t : task) : Option String :=
  match t.Container with
  | some c =>
    match c.Docker with
    | some d => d.Image
    | none => none
  | none => none

/-- The modality of the container binding, `t.Container.Type`. -/
def task.containerType (t : task) : Option ContainerInfo_Type :=
  match t.Container with
  | some c => c.Type_
  | none => none

/-- Three events to run the loop on: `RUNNING`, `FAILED` "oom", `FINISHED`. -/
def sampleEvents : List (Option TaskStatus) :=
  [some { State := some TaskState_TASK_RUNNING, Message := none },
   some { State := some TaskState_TASK_FAILED, Message := some "oom" },
   some { State := some TaskState_TASK_FINISHED, Message := none }]

/-- The split of a serialized label at its first equals sign. -/
def splitAtFirstEq (s : String) : String × String :=
  (String.mk (s.data.takeWhile (fun c => c ≠ '=')),
    String.mk ((s.data.dropWhile (fun c => c ≠ '=')).drop 1))

/-- A random suffix as the claims assume it: twelve hexadecimal digits. -/
def isShortID (s : String) : Prop :=
  s.length = 12 ∧ ∀ c ∈ s.data, c ∈ "0123456789abcdef".data

instance (s : String) : Decidable (isShortID s) := by
  unfold isShortID; infer_instance

/-! ## The conversion to `float64` -/

theorem bitLenAux_le (fuel : Nat) : ∀ (n a : Nat), a < 2 ^ n → bitLenAux fuel a ≤ n := by
  induction fuel with
  | zero => intro n a _; simp [bitLenAux]
  | succ fuel ih =>
    intro n a h
    unfold bitLenAux
    split_ifs with h0
    · exact Nat.zero_le _
    · cases n with
      | zero => simp at h; omega
      | succ n =>
        have h2 : a / 2 < 2 ^ n := by
          rw [pow_succ] at h
          omega
        have := ih n (a / 2) h2
        omega

theorem bitLenAux_zero (fuel : Nat) : bitLenAux fuel 0 = 0 := by
  cases fuel <;> simp [bitLenAux]

theorem two_pow_bitLenAux_le (fuel : Nat) : ∀ a : Nat, a ≠ 0 → 2 ^ bitLenAux fuel a ≤ 2 * a := by
  induction fuel with
  | zero => intro a h; simp [bitLenAux]; omega
  | succ fuel ih =>
    intro a h
    unfold bitLenAux
    rw [if_neg h, pow_succ]
    by_cases h2 : a / 2 = 0
    · rw [h2, bitLenAux_zero]
      omega
    · have := ih (a / 2) h2
      omega

theorem roundSig_of_lt (a : Nat) (h : a < 2 ^ 53) : roundSig a = a := by
  have h1 : bitLen a - 53 = 0 := by
    have := bitLenAux_le 64 53 a h
    unfold bitLen
    omega
  simp [roundSig, h1, Nat.mod_one]

theorem roundSig_pos (a : Nat) (h : 0 < a) : 0 < roundSig a := by
  have hq : 0 < a / 2 ^ (bitLen a - 53) := by
    apply Nat.div_pos _ (by positivity)
    by_cases hb : bitLen a ≤ 53
    · have : bitLen a - 53 = 0 := by omega
      rw [this]
      simpa using h
    · have h1 : 2 ^ bitLen a ≤ 2 * a := two_pow_bitLenAux_le 64 a (by omega)
      have h2 : 2 ^ bitLen a = 2 ^ (bitLen a - 53) * 2 ^ 53 := by
        rw [← pow_add]
        congr 1
        omega
      rw [h2] at h1
      have h3 : (0 : Nat) < 2 ^ (bitLen a - 53) := by positivity
      generalize 2 ^ (bitLen a - 53) = p at h1 h3
      norm_num at h1
      omega
  unfold roundSig
  simp only []
  split_ifs
  · positivity
  · exact Nat.mul_pos hq (by positivity)

theorem float64_of_nonneg_lt (x : Int) (h0 : 0 ≤ x) (h : x < 2 ^ 53) : float64 x = x := by
  have h1 : x.natAbs < 2 ^ 53 := by omega
  unfold float64
  rw [if_neg (by omega), roundSig_of_lt _ h1]
  omega

theorem float64_pos (x : Int) (h : 0 < x) : 0 < float64 x := by
  have h1 : 0 < roundSig x.natAbs := roundSig_pos _ (by omega)
  unfold float64
  rw [if_neg (by omega)]
  exact_mod_cast h1

theorem float64_zero : float64 0 = 0 := by decide

/-! ## The resources that `build` leaves -/

theorem build_Resources (t : task) (slaveID : String) :
    (t.build slaveID).Resources = t.Resources ++ appendedClaims t.config := by
  unfold task.build appendedClaims
  by_cases h1 : t.config.CpuShares > 0 <;> by_cases h2 : t.config.Memory > 0 <;>
    simp [h1, h2]

theorem newTask_Resources (reserved : String → String) (config : ContainerConfig)
    (name randomID : String) : (newTask reserved config name randomID).1.Resources = [] := rfl

theorem newTask_config_CpuShares (reserved : String → String) (config : ContainerConfig)
    (name randomID : String) :
    (newTask reserved config name randomID).1.config.CpuShares = config.CpuShares := rfl

theorem newTask_config_Memory (reserved : String → String) (config : ContainerConfig)
    (name randomID : String) :
    (newTask reserved config name randomID).1.config.Memory = config.Memory := rfl

theorem freshBuild_Resources (reserved : String → String) (config : ContainerConfig)
    (name randomID slaveID : String) :
    (freshBuild reserved config name randomID slaveID).Resources
      = (if config.CpuShares > 0 then [NewScalarResource "cpus" (float64 config.CpuShares)]
          else []) ++
        (if config.Memory > 0 then
          [NewScalarResource "mem" (float64 ((config.Memory.tdiv 1024).tdiv 1024))] else []) := by
  unfold freshBuild
  rw [build_Resources, newTask_Resources]
  simp [appendedClaims, newTask_config_CpuShares, newTask_config_Memory]

theorem mebibytes_eq (mem : Int) (h : 0 < mem) :
    (mem.tdiv 1024).tdiv 1024 = mem / 1048576 := by
  have h1 : mem.tdiv 1024 = mem / 1024 := Int.tdiv_eq_ediv (by omega) (by norm_num)
  rw [h1, Int.tdiv_eq_ediv (by omega) (by norm_num)]
  omega

/-! ## The monitor -/

/-- The result of `monitor` on a channel whose next status has the given state
and message, by cases on the state. -/
theorem monitor_cons (t : task) (ev : Option TaskStatus) (rest : List (Option TaskStatus)) :
    (t.withUpdates (ev :: rest)).monitor =
      some ((decide (isTerminalState (TaskStatus.GetState ev)),
             if isFailureState (TaskStatus.GetState ev) then some (TaskStatus.GetMessage ev)
             else none),
            t.withUpdates rest) := by
  simp only [task.monitor, task.getStatus, task.withUpdates, isTerminalState, isFailureState,
    errors.New, TaskState_TASK_STAGING, TaskState_TASK_STARTING, TaskState_TASK_RUNNING,
    TaskState_TASK_FINISHED, TaskState_TASK_FAILED, TaskState_TASK_KILLED,
    TaskState_TASK_LOST, TaskState_TASK_ERROR]
  generalize TaskStatus.GetState ev = st
  split_ifs <;> simp_all

/-- C1: for every status event, `monitor` consumes it and reports
`isTerminal = true` exactly when the state of the event is `FINISHED`, `KILLED`,
`FAILED`, `LOST` or `ERROR`; for `STAGING`, `STARTING`, `RUNNING` and for every
state outside the enumerated set the result is exactly `(false, nil)`. -/
theorem monitor_isTerminal_iff (t : task) (ev : Option TaskStatus)
    (rest : List (Option TaskStatus)) :
    ∃ r : Bool × error,
      (t.withUpdates (ev :: rest)).monitor = some (r, t.withUpdates rest) ∧
      (r.1 = true ↔ isTerminalState (TaskStatus.GetState ev)) ∧
      (¬ isTerminalState (TaskStatus.GetState ev) → r = (false, none)) ∧
      (TaskStatus.GetState ev = TaskState_TASK_STAGING ∨
        TaskStatus.GetState ev = TaskState_TASK_STARTING ∨
        TaskStatus.GetState ev = TaskState_TASK_RUNNING → r = (false, none)) := by
  refine ⟨_, monitor_cons t ev rest, ?_, ?_, ?_⟩
  · simp
  · intro h
    have h2 : ¬ isFailureState (TaskStatus.GetState ev) := by
      intro hf
      apply h
      rcases hf with hf | hf | hf <;> simp [isTerminalState, hf]
    simp [h, h2]
  · intro h
    have h1 : ¬ isTerminalState (TaskStatus.GetState ev) := by
      rcases h with h | h | h <;> rw [h] <;> decide
    have h2 : ¬ isFailureState (TaskStatus.GetState ev) := by
      rcases h with h | h | h <;> rw [h] <;> decide
    simp [h1, h2]

/-- C1 at a `RUNNING` event: the result is `(false, nil)` and the event is consumed. -/
theorem monitor_isTerminal_iff_witness :
    ∃ r : Bool × error,
      (sampleTask.withUpdates [some { State := some TaskState_TASK_RUNNING, Message := none }]).monitor
        = some (r, sampleTask.withUpdates []) ∧ r = (false, none) := by
  obtain ⟨r, h1, _, _, h4⟩ := monitor_isTerminal_iff sampleTask
    (some { State := some TaskState_TASK_RUNNING, Message := none }) []
  exact ⟨r, h1, h4 (by decide)⟩

/-- C2: for every status event, `monitor` returns a non-nil error exactly when
the state of the event is `FAILED`, `LOST` or `ERROR`, and then the text of the
error is the message of the event (the empty message included); `FINISHED` and
`KILLED` give `(true, nil)`, and a non-terminal result carries no error. -/
theorem monitor_error_iff (t : task) (ev : Option TaskStatus)
    (rest : List (Option TaskStatus)) :
    ∃ r : Bool × error,
      (t.withUpdates (ev :: rest)).monitor = some (r, t.withUpdates rest) ∧
      (r.2 ≠ none ↔ isFailureState (TaskStatus.GetState ev)) ∧
      (isFailureState (TaskStatus.GetState ev) →
        r = (true, some (TaskStatus.GetMessage ev))) ∧
      (TaskStatus.GetState ev = TaskState_TASK_FINISHED ∨
        TaskStatus.GetState ev = TaskState_TASK_KILLED → r = (true, none)) ∧
      (r.1 = false → r.2 = none) := by
  refine ⟨_, monitor_cons t ev rest, ?_, ?_, ?_, ?_⟩
  · by_cases h : isFailureState (TaskStatus.GetState ev) <;> simp [h]
  · intro h
    have h1 : isTerminalState (TaskStatus.GetState ev) := by
      rcases h with h | h | h <;> simp [isTerminalState, h]
    simp [h, h1]
  · intro h
    have h1 : isTerminalState (TaskStatus.GetState ev) := by
      rcases h with h | h <;> rw [h] <;> decide
    have h2 : ¬ isFailureState (TaskStatus.GetState ev) := by
      rcases h with h | h <;> rw [h] <;> decide
    simp [h1, h2]
  · intro h
    have h1 : ¬ isTerminalState (TaskStatus.GetState ev) := by simpa using h
    have h2 : ¬ isFailureState (TaskStatus.GetState ev) := by
      intro hf
      apply h1
      rcases hf with hf | hf | hf <;> simp [isTerminalState, hf]
    simp [h2]

/-- C2 at a `FAILED` event with the empty message: the error is non-nil and its
text is empty. -/
theorem monitor_error_iff_witness :
    ∃ r : Bool × error,
      (sampleTask.withUpdates [some { State := some TaskState_TASK_FAILED, Message := some "" }]).monitor
        = some (r, sampleTask.withUpdates []) ∧ r = (true, some "") := by
  obtain ⟨r, h1, _, h3, _, _⟩ := monitor_error_iff sampleTask
    (some { State := some TaskState_TASK_FAILED, Message := some "" }) []
  exact ⟨r, h1, h3 (by decide)⟩

/-! ## The builder -/

/-- C3: for every network mode, `build` sets the network of the descriptor:
`NONE` for "none", `HOST` for "host", `BRIDGE` for "bridge" and for the empty
string, and `BRIDGE` for every other string; the network is never left unset. -/
theorem build_network (t : task) (slaveID : String) :
    ((t.withNetworkMode "none").build slaveID).network
        = some ContainerInfo_DockerInfo_Network.NONE ∧
    ((t.withNetworkMode "host").build slaveID).network
        = some ContainerInfo_DockerInfo_Network.HOST ∧
    ((t.withNetworkMode "bridge").build slaveID).network
        = some ContainerInfo_DockerInfo_Network.BRIDGE ∧
    ((t.withNetworkMode "").build slaveID).network
        = some ContainerInfo_DockerInfo_Network.BRIDGE ∧
    (∀ mode : String, mode ≠ "none" → mode ≠ "host" →
      ((t.withNetworkMode mode).build slaveID).network
        = some ContainerInfo_DockerInfo_Network.BRIDGE) ∧
    (∀ mode : String, ((t.withNetworkMode mode).build slaveID).network ≠ none) := by
  refine ⟨?_, ?_, ?_, ?_, ?_, ?_⟩
  · simp [task.build, task.network, task.withNetworkMode, networkOf]
  · simp [task.build, task.network, task.withNetworkMode, networkOf]
  · simp [task.build, task.network, task.withNetworkMode, networkOf]
  · simp [task.build, task.network, task.withNetworkMode, networkOf]
  · intro mode h1 h2
    simp [task.build, task.network, task.withNetworkMode, networkOf, h1, h2]
  · intro mode
    simp [task.build, task.network, task.withNetworkMode]

/-- C3 at the mode "weird": the network is the bridge. -/
theorem build_network_witness :
    ((sampleTask.withNetworkMode "weird").build "node-1").network
      = some ContainerInfo_DockerInfo_Network.BRIDGE :=
  (build_network sampleTask "node-1").2.2.2.2.1 "weird" (by decide) (by decide)

/-- C4: for every memory limit `mem > 0` of an `int64`, building a freshly
constructed task yields exactly one claim named "mem", whose value is
`(mem / 1024) / 1024` in truncating division, the floor of `mem / 1048576`;
the limit 2147483648 gives 2048; for `mem ≤ 0` there is no claim named "mem". -/
theorem build_mem_claim (reserved : String → String) (config : ContainerConfig)
    (name randomID slaveID : String) (mem : Int) :
    (0 < mem → mem < 2 ^ 63 →
      (freshBuild reserved (config.withMemory mem) name randomID slaveID).claims "mem"
        = [NewScalarResource "mem" ((mem.tdiv 1024).tdiv 1024)] ∧
      (mem.tdiv 1024).tdiv 1024 = ⌊(mem : ℚ) / 1048576⌋) ∧
    (mem ≤ 0 →
      (freshBuild reserved (config.withMemory mem) name randomID slaveID).claims "mem" = []) ∧
    (freshBuild reserved (config.withMemory 2147483648) name randomID slaveID).claims "mem"
      = [NewScalarResource "mem" 2048] := by
  have key : ∀ m : Int, 0 < m → m < 2 ^ 63 →
      (freshBuild reserved (config.withMemory m) name randomID slaveID).claims "mem"
        = [NewScalarResource "mem" ((m.tdiv 1024).tdiv 1024)] := by
    intro m h0 h1
    have hv : float64 ((m.tdiv 1024).tdiv 1024) = (m.tdiv 1024).tdiv 1024 := by
      rw [mebibytes_eq m h0]
      exact float64_of_nonneg_lt _ (by omega) (by omega)
    unfold task.claims
    rw [freshBuild_Resources]
    by_cases hc : config.CpuShares > 0 <;>
      simp [ContainerConfig.withMemory, hc, h0, hv, NewScalarResource, Resource.GetName]
  refine ⟨fun h0 h1 => ⟨key mem h0 h1, ?_⟩, ?_, ?_⟩
  · rw [mebibytes_eq mem h0]
    have := Rat.floor_intCast_div_natCast mem 1048576
    simpa using this.symm
  · intro h
    unfold task.claims
    rw [freshBuild_Resources]
    have h2 : ¬ mem > 0 := by omega
    by_cases hc : config.CpuShares > 0 <;>
      simp [ContainerConfig.withMemory, hc, h2, NewScalarResource, Resource.GetName]
  · have := key 2147483648 (by norm_num) (by norm_num)
    simpa using this

/-- C4 at one mebibyte and a half: the claim named "mem" has the value 1. -/
theorem build_mem_claim_witness :
    (freshBuild id (sampleConfig.withMemory 1572864) "web" "0123456789ab" "node-1").claims "mem"
      = [NewScalarResource "mem" ((Int.tdiv 1572864 1024).tdiv 1024)] ∧
    (Int.tdiv 1572864 1024).tdiv 1024 = ⌊((1572864 : Int) : ℚ) / 1048576⌋ :=
  (build_mem_claim id sampleConfig "web" "0123456789ab" "node-1" 1572864).1
    (by decide) (by decide)

/-- C5, as stated, fails at the share count `2 ^ 53 + 1`: the value of the claim
named "cpus" is `2 ^ 53`, the nearest `float64`, and not the share count. -/
theorem build_cpus_claim_counterexample :
    (freshBuild id (sampleConfig.withCpuShares 9007199254740993) "web" "0123456789ab"
        "node-1").claims "cpus" = [NewScalarResource "cpus" 9007199254740992] ∧
    (freshBuild id (sampleConfig.withCpuShares 9007199254740993) "web" "0123456789ab"
        "node-1").claims "cpus" ≠ [NewScalarResource "cpus" 9007199254740993] := by
  decide

/-- C5, amended: building a freshly constructed task yields no claim named
"cpus" when the share count `c` is not positive, and exactly one claim named
"cpus" when `c > 0`; its value is `float64(c)`, which is `c` itself for every
`c` up to `2 ^ 53`. -/
theorem build_cpus_claim (reserved : String → String) (config : ContainerConfig)
    (name randomID slaveID : String) (c : Int) :
    (c ≤ 0 →
      (freshBuild reserved (config.withCpuShares c) name randomID slaveID).claims "cpus" = []) ∧
    (0 < c →
      (freshBuild reserved (config.withCpuShares c) name randomID slaveID).claims "cpus"
        = [NewScalarResource "cpus" (float64 c)]) ∧
    (0 < c → c ≤ 2 ^ 53 →
      (freshBuild reserved (config.withCpuShares c) name randomID slaveID).claims "cpus"
        = [NewScalarResource "cpus" c]) := by
  have key : 0 < c →
      (freshBuild reserved (config.withCpuShares c) name randomID slaveID).claims "cpus"
        = [NewScalarResource "cpus" (float64 c)] := by
    intro h0
    unfold task.claims
    rw [freshBuild_Resources]
    by_cases hm : config.Memory > 0 <;>
      simp [ContainerConfig.withCpuShares, hm, h0, NewScalarResource, Resource.GetName]
  refine ⟨?_, key, ?_⟩
  · intro h
    unfold task.claims
    rw [freshBuild_Resources]
    have h2 : ¬ c > 0 := by omega
    by_cases hm : config.Memory > 0 <;>
      simp [ContainerConfig.withCpuShares, hm, h2, NewScalarResource, Resource.GetName]
  · intro h0 h1
    rw [key h0]
    have hv : float64 c = c := by
      by_cases hlt : c < 2 ^ 53
      · exact float64_of_nonneg_lt c (by omega) hlt
      · have : c = 9007199254740992 := by omega
        subst this
        decide
    rw [hv]

/-- C5, amended, at the share count 1024: one claim named "cpus" with value 1024. -/
theorem build_cpus_claim_witness :
    (freshBuild id (sampleConfig.withCpuShares 1024) "web" "0123456789ab" "node-1").claims "cpus"
      = [NewScalarResource "cpus" 1024] :=
  (build_cpus_claim id sampleConfig "web" "0123456789ab" "node-1" 1024).2.2
    (by decide) (by decide)

/-- C6, as stated, fails at the memory limit of one byte: the guard passes and
the claim named "mem" is appended with the value zero. -/
theorem build_claims_positive_counterexample :
    ¬ (∀ r ∈ ((sampleTask.withMemory 1).build "node-1").Resources.drop
          (sampleTask.withMemory 1).Resources.length, 0 < r.GetScalarValue) := by
  decide

/-- C6, amended: every claim that `build` appends comes from a strictly
positive value of the specification, so that nothing is appended for a
non-positive share count or memory limit; a claim named "cpus" has a strictly
positive value; a claim named "mem" has a value that is not negative, and that
is zero exactly when the memory limit is below 1048576 bytes. -/
theorem build_appended_claims_value (t : task) (slaveID : String) (r : Resource)
    (h : r ∈ (t.build slaveID).Resources.drop t.Resources.length) :
    (r.GetName = "cpus" ∧ 0 < t.config.CpuShares ∧ 0 < r.GetScalarValue) ∨
    (r.GetName = "mem" ∧ 0 < t.config.Memory ∧ 0 ≤ r.GetScalarValue ∧
      (r.GetScalarValue = 0 ↔ t.config.Memory < 1048576)) := by
  rw [build_Resources, List.drop_left] at h
  unfold appendedClaims at h
  rw [List.mem_append] at h
  rcases h with h | h
  · left
    by_cases hc : t.config.CpuShares > 0
    · rw [if_pos hc, List.mem_singleton] at h
      subst h
      exact ⟨rfl, hc, float64_pos _ hc⟩
    · rw [if_neg hc] at h
      exact absurd h (List.not_mem_nil _)
  · right
    by_cases hm : t.config.Memory > 0
    · rw [if_pos hm, List.mem_singleton] at h
      subst h
      have hv : (NewScalarResource "mem"
          (float64 ((t.config.Memory.tdiv 1024).tdiv 1024))).GetScalarValue
          = float64 (t.config.Memory / 1048576) := by
        rw [mebibytes_eq _ hm]
        rfl
      rw [hv]
      refine ⟨rfl, hm, ?_, ?_⟩
      · by_cases hz : t.config.Memory / 1048576 = 0
        · rw [hz, float64_zero]
        · exact le_of_lt (float64_pos _ (by omega))
      · constructor
        · intro h0
          by_contra hge
          have := float64_pos (t.config.Memory / 1048576) (by omega)
          omega
        · intro hlt
          have hz : t.config.Memory / 1048576 = 0 := by omega
          rw [hz, float64_zero]
    · rw [if_neg hm] at h
      exact absurd h (List.not_mem_nil _)

/-- C6, amended, at the memory limit of one byte: the claim named "mem" is
appended with the value zero. -/
theorem build_appended_claims_value_witness :
    (NewScalarResource "mem" 0).GetName = "mem" ∧
    (0 : Int) < (sampleTask.withMemory 1).config.Memory ∧
    (NewScalarResource "mem" 0).GetScalarValue = 0 := by
  have h := build_appended_claims_value (sampleTask.withMemory 1) "node-1"
    (NewScalarResource "mem" 0) (by decide)
  rcases h with ⟨h1, _, _⟩ | ⟨h1, h2, _, h4⟩
  · exact absurd h1 (by decide)
  · exact ⟨h1, h2, h4.mpr (by decide)⟩

/-- C7: for every specification, the command that `build` produces has the shell
disabled; for a command vector with a non-empty first element the executable is
that element and the arguments are the remaining elements in order; for the
empty command vector the executable is unset and there are no arguments. -/
theorem build_command (t : task) (slaveID : String) :
    (∃ command, (t.build slaveID).Command = some command ∧ command.Shell = some false) ∧
    (∀ (first : String) (rest : List String), first ≠ "" →
      ((t.withCmd (first :: rest)).build slaveID).Command
        = some { Shell := some false, Value := some first, Arguments := rest }) ∧
    ((t.withCmd ["/bin/sh", "-c", "echo hi"]).build slaveID).Command
      = some { Shell := some false, Value := some "/bin/sh", Arguments := ["-c", "echo hi"] } ∧
    ((t.withCmd []).build slaveID).Command
      = some { Shell := some false, Value := none, Arguments := [] } := by
  have key : ∀ (first : String) (rest : List String), first ≠ "" →
      ((t.withCmd (first :: rest)).build slaveID).Command
        = some { Shell := some false, Value := some first, Arguments := rest } := by
    intro first rest h
    cases rest with
    | nil => simp [task.build, task.withCmd, h]
    | cons a rest => simp [task.build, task.withCmd, h]
  refine ⟨?_, key, key _ _ (by decide), ?_⟩
  · refine ⟨_, rfl, ?_⟩
    rcases hc : t.config.Cmd with _ | ⟨first, rest⟩
    · simp
    · by_cases h1 : first = "" <;> by_cases h2 : 0 < rest.length <;> simp [h1, h2]
  · simp [task.build, task.withCmd]

/-- C7 at a command vector of one element: the executable is set and there are
no arguments. -/
theorem build_command_witness :
    ((sampleTask.withCmd ["/bin/true"]).build "node-1").Command
      = some { Shell := some false, Value := some "/bin/true", Arguments := [] } :=
  (build_command sampleTask "node-1").2.1 "/bin/true" [] (by decide)

theorem appendLabels_eq (labels : List (String × String)) : ∀ params : List Parameter,
    appendLabels params labels
      = params ++ labels.map
          (fun kv => { Key := some "label", Value := some (kv.1 ++ "=" ++ kv.2) }) := by
  induction labels with
  | nil => intro params; simp [appendLabels]
  | cons kv rest ih =>
    intro params
    obtain ⟨key, value⟩ := kv
    simp [appendLabels, ih]

/-- C8: for every label set of the specification, the runtime parameters of the
built descriptor are, up to order, one parameter per label pair, with the key
"label" and the value `key ++ "=" ++ value`; there are as many parameters as
labels; the label set with the one pair ("env", "prod") gives `label=env=prod`. -/
theorem build_label_parameters (t : task) (slaveID : String) :
    ((t.build slaveID).parameters.Perm
      (t.config.Labels.map
        (fun kv => { Key := some "label", Value := some (kv.1 ++ "=" ++ kv.2) }))) ∧
    (t.build slaveID).parameters.length = t.config.Labels.length ∧
    ((t.withLabels [("env", "prod")]).build slaveID).parameters
      = [{ Key := some "label", Value := some "env=prod" }] := by
  have key : ∀ u : task, (u.build slaveID).parameters
      = u.config.Labels.map
          (fun kv => { Key := some "label", Value := some (kv.1 ++ "=" ++ kv.2) }) := by
    intro u
    simp [task.build, task.parameters, appendLabels_eq]
  refine ⟨?_, ?_, ?_⟩
  · rw [key]
  · rw [key, List.length_map]
  · rw [key]
    simp only [task.withLabels, List.map]
    decide

/-- C9: for every specification and display name, `newTask` returns a nil error
and a task whose identity is `displayName ++ "." ++ randomSuffix` when the
display name is not empty, and the random suffix alone when it is empty. -/
theorem newTask_ID (reserved : String → String) (config : ContainerConfig)
    (name randomID : String) :
    (newTask reserved config name randomID).2 = none ∧
    (name ≠ "" → (newTask reserved config name randomID).1.ID = name ++ "." ++ randomID) ∧
    (name = "" → (newTask reserved config name randomID).1.ID = randomID) := by
  refine ⟨rfl, ?_, ?_⟩
  · intro h
    simp [newTask, task.ID, TaskID.GetValue, h]
  · intro h
    simp [newTask, task.ID, TaskID.GetValue, h]

/-- C9 at the display name "web": the identity is the name, a dot and the suffix. -/
theorem newTask_ID_witness :
    (newTask id sampleConfig "web" "0123456789ab").1.ID = "web.0123456789ab" :=
  (newTask_ID id sampleConfig "web" "0123456789ab").2.1 (by decide)

/-- C10: for every specification, target node and prior state of the descriptor,
after `build` the target node of the descriptor is the given node. -/
theorem build_SlaveId (t : task) (slaveID : String) :
    (t.build slaveID).SlaveId = some { Value := some slaveID } := by
  rfl

/-! ## The identity of a task -/

theorem newTask_ID_eq (reserved : String → String) (config : ContainerConfig)
    (name randomID : String) :
    (newTask reserved config name randomID).1.ID
      = if name ≠ "" then name ++ "." ++ randomID else randomID := by
  by_cases h : name = "" <;> simp [newTask, task.ID, TaskID.GetValue, h]

theorem string_append_data (a b : String) : (a ++ b).data = a.data ++ b.data := by
  simp

theorem string_eq_of_data {a b : String} (h : a.data = b.data) : a = b :=
  String.ext h

theorem mapGet_mapSet (m : List (String × String)) (key value : String) :
    mapGet (mapSet m key value) key = some value := by
  induction m with
  | nil => simp [mapSet, mapGet]
  | cons kv rest ih =>
    obtain ⟨k, v⟩ := kv
    by_cases h : k = key
    · simp [mapSet, mapGet, h]
    · simp [mapSet, mapGet, h, ih]

theorem mem_mapSet (m : List (String × String)) (key value : String) :
    (key, value) ∈ mapSet m key value := by
  induction m with
  | nil => simp [mapSet]
  | cons kv rest ih =>
    obtain ⟨k, v⟩ := kv
    by_cases h : k = key
    · simp [mapSet, h]
    · simp [mapSet, h, ih]

theorem build_parameters (t : task) (slaveID : String) :
    (t.build slaveID).parameters
      = t.config.Labels.map
          (fun kv => { Key := some "label", Value := some (kv.1 ++ "=" ++ kv.2) }) := by
  simp [task.build, task.parameters, appendLabels_eq]

/-- C11: the identity is immutable after creation: for every task that
`newTask` returns and every target node, `build` leaves the identity and the
name as they were, and so does a step of `monitor`, on the task as created and
on the task as built. -/
theorem identity_immutable (reserved : String → String) (config : ContainerConfig)
    (name randomID slaveID : String) (ev : Option TaskStatus)
    (rest : List (Option TaskStatus)) :
    ((newTask reserved config name randomID).1.build slaveID).ID
      = (newTask reserved config name randomID).1.ID ∧
    ((newTask reserved config name randomID).1.build slaveID).Name
      = (newTask reserved config name randomID).1.Name ∧
    (∃ r t, ((newTask reserved config name randomID).1.withUpdates (ev :: rest)).monitor
        = some (r, t) ∧
      t.ID = (newTask reserved config name randomID).1.ID ∧
      t.Name = (newTask reserved config name randomID).1.Name) ∧
    (∃ r t, (((newTask reserved config name randomID).1.build slaveID).withUpdates
        (ev :: rest)).monitor = some (r, t) ∧
      t.ID = (newTask reserved config name randomID).1.ID ∧
      t.Name = (newTask reserved config name randomID).1.Name) := by
  refine ⟨rfl, rfl, ⟨_, _, monitor_cons _ ev rest, rfl, rfl⟩, ⟨_, _, monitor_cons _ ev rest, rfl, rfl⟩⟩

/-- C12: for every specification and display name, the empty name included,
after `newTask` the label set of the specification maps the reserved key of
"mesos.name" to the display name, and a following `build` emits a runtime
parameter "label" that carries the reserved key and the name. -/
theorem newTask_records_name (reserved : String → String) (config : ContainerConfig)
    (name randomID slaveID : String) :
    mapGet (newTask reserved config name randomID).1.config.Labels (reserved "mesos.name")
      = some name ∧
    ({ Key := some "label", Value := some (reserved "mesos.name" ++ "=" ++ name) } : Parameter)
      ∈ (freshBuild reserved config name randomID slaveID).parameters := by
  constructor
  · exact mapGet_mapSet _ _ _
  · unfold freshBuild
    rw [build_parameters, List.mem_map]
    exact ⟨(reserved "mesos.name", name), mem_mapSet _ _ _, rfl⟩

/-- C13: two tasks constructed with the same display name and two distinct
random suffixes have distinct identities. -/
theorem newTask_ID_ne (reserved : String → String) (config1 config2 : ContainerConfig)
    (name randomID1 randomID2 : String) (h : randomID1 ≠ randomID2) :
    (newTask reserved config1 name randomID1).1.ID
      ≠ (newTask reserved config2 name randomID2).1.ID := by
  rw [newTask_ID_eq, newTask_ID_eq]
  by_cases hn : name = ""
  · simpa [hn] using h
  · simp only [ne_eq, hn, not_false_eq_true, if_true]
    intro heq
    apply h
    have hd := congrArg String.data heq
    simp only [string_append_data] at hd
    exact string_eq_of_data (List.append_cancel_left hd)

/-- C13 at the name "web" and two suffixes that differ in the last digit. -/
theorem newTask_ID_ne_witness :
    (newTask id sampleConfig "web" "0123456789ab").1.ID
      ≠ (newTask id sampleConfig "web" "0123456789ac").1.ID :=
  newTask_ID_ne id sampleConfig sampleConfig "web" "0123456789ab" "0123456789ac" (by decide)

/-! ## The loop of the caller -/

theorem classification_of_not_terminal (ev : Option TaskStatus)
    (h : ¬ isTerminalState (TaskStatus.GetState ev)) : classification ev = (false, none) := by
  have h2 : ¬ isFailureState (TaskStatus.GetState ev) := by
    intro hf
    apply h
    rcases hf with hf | hf | hf <;> simp [isTerminalState, hf]
  simp [classification, h, h2]

theorem classification_fst (ev : Option TaskStatus) :
    (classification ev).1 = true ↔ isTerminalState (TaskStatus.GetState ev) := by
  simp [classification]

theorem monitorUntilTerminal_run (t : task) (term : Option TaskStatus)
    (post : List (Option TaskStatus)) (hterm : isTerminalState (TaskStatus.GetState term)) :
    ∀ (pre : List (Option TaskStatus)),
      (∀ ev ∈ pre, ¬ isTerminalState (TaskStatus.GetState ev)) →
      ∀ (fuel : Nat) (trace : List (Bool × error)), pre.length < fuel →
        monitorUntilTerminal fuel (t.withUpdates (pre ++ term :: post)) trace
          = some (trace ++ pre.map (fun _ => (false, none)) ++ [classification term],
              t.withUpdates post) := by
  intro pre
  induction pre with
  | nil =>
    intro _ fuel trace hfuel
    cases fuel with
    | zero => simp at hfuel
    | succ fuel =>
      have hm := monitor_cons t term post
      simp only [List.nil_append, monitorUntilTerminal, hm]
      have h1 : decide (isTerminalState (TaskStatus.GetState term)) = true := by simpa using hterm
      simp [classification, h1]
  | cons ev pre ih =>
    intro hpre fuel trace hfuel
    cases fuel with
    | zero => simp at hfuel
    | succ fuel =>
      have hev : ¬ isTerminalState (TaskStatus.GetState ev) := hpre ev (List.mem_cons_self _ _)
      have hm := monitor_cons t ev (pre ++ term :: post)
      have hc := classification_of_not_terminal ev hev
      unfold classification at hc
      rw [hc] at hm
      have hrec := ih (fun e he => hpre e (List.mem_cons_of_mem _ he)) fuel
        (trace ++ [(false, none)]) (by simpa using hfuel)
      simp only [List.cons_append, monitorUntilTerminal, hm]
      simpa using hrec

theorem exists_first_terminal (events : List (Option TaskStatus))
    (h : ∃ ev ∈ events, isTerminalState (TaskStatus.GetState ev)) :
    ∃ pre term post, events = pre ++ term :: post ∧
      (∀ ev ∈ pre, ¬ isTerminalState (TaskStatus.GetState ev)) ∧
      isTerminalState (TaskStatus.GetState term) := by
  induction events with
  | nil => simp at h
  | cons e rest ih =>
    by_cases he : isTerminalState (TaskStatus.GetState e)
    · exact ⟨[], e, rest, rfl, by simp, he⟩
    · obtain ⟨ev, hmem, hev⟩ := h
      have hrest : ∃ ev ∈ rest, isTerminalState (TaskStatus.GetState ev) := by
        rcases List.mem_cons.mp hmem with h1 | h1
        · exact absurd (h1 ▸ hev) he
        · exact ⟨ev, h1, hev⟩
      obtain ⟨pre, term, post, h1, h2, h3⟩ := ih hrest
      refine ⟨e :: pre, term, post, by simp [h1], ?_, h3⟩
      intro x hx
      rcases List.mem_cons.mp hx with hx | hx
      · exact hx ▸ he
      · exact h2 x hx

/-- C14: with the channel as the sequence of the events sent and a caller that
calls `monitor` until it first reports terminal: for every sequence that
contains a terminal event, the sequence splits at its first terminal event, the
loop returns with one pair per event up to and including that event, all pairs
but the last are `(false, nil)`, the last is the classification of the first
terminal event and the only terminal one, and the events after it are left on
the channel unread. -/
theorem monitorUntilTerminal_first_terminal (t : task) (events : List (Option TaskStatus))
    (h : ∃ ev ∈ events, isTerminalState (TaskStatus.GetState ev)) :
    ∃ pre term post, events = pre ++ term :: post ∧
      (∀ ev ∈ pre, ¬ isTerminalState (TaskStatus.GetState ev)) ∧
      isTerminalState (TaskStatus.GetState term) ∧
      ∀ fuel, pre.length < fuel →
        ∃ trace, monitorUntilTerminal fuel (t.withUpdates events) []
            = some (trace, t.withUpdates post) ∧
          trace = pre.map (fun _ => (false, none)) ++ [classification term] ∧
          (trace.filter (fun r => r.1)).length = 1 ∧
          trace.length + post.length = events.length := by
  obtain ⟨pre, term, post, h1, h2, h3⟩ := exists_first_terminal events h
  refine ⟨pre, term, post, h1, h2, h3, ?_⟩
  intro fuel hfuel
  refine ⟨_, ?_, rfl, ?_, ?_⟩
  · rw [h1]
    simpa using monitorUntilTerminal_run t term post h3 pre h2 fuel [] hfuel
  · have hc : (classification term).1 = true := (classification_fst term).mpr h3
    have hpre : (List.map (fun _ => ((false, none) : Bool × error)) pre).filter (fun r => r.1)
        = [] := by
      rw [List.filter_eq_nil_iff]
      intro r hr
      obtain ⟨_, _, rfl⟩ := List.mem_map.mp hr
      simp
    rw [List.filter_append, hpre]
    simp [hc]
  · rw [h1]
    simp
    omega

/-- C14 at the events `RUNNING`, `FAILED` "oom", `FINISHED`, which contain a
terminal event: the split and the run of the loop exist. -/
theorem monitorUntilTerminal_first_terminal_witness :
    ∃ pre term post, sampleEvents = pre ++ term :: post ∧
      (∀ ev ∈ pre, ¬ isTerminalState (TaskStatus.GetState ev)) ∧
      isTerminalState (TaskStatus.GetState term) ∧
      ∀ fuel, pre.length < fuel →
        ∃ trace, monitorUntilTerminal fuel (sampleTask.withUpdates sampleEvents) []
            = some (trace, sampleTask.withUpdates post) ∧
          trace = pre.map (fun _ => (false, none)) ++ [classification term] ∧
          (trace.filter (fun r => r.1)).length = 1 ∧
          trace.length + post.length = sampleEvents.length :=
  monitorUntilTerminal_first_terminal sampleTask sampleEvents
    ⟨some { State := some TaskState_TASK_FAILED, Message := some "oom" }, by decide, by decide⟩

/-! ## Placement and the command -/

theorem buildVisiting_self (t : task) (slaveID : String) :
    t.buildVisiting slaveID t.config.Labels = t.build slaveID := by
  rfl

theorem buildVisiting_parameters (t : task) (slaveID : String)
    (visit : List (String × String)) :
    (t.buildVisiting slaveID visit).parameters
      = visit.map (fun kv => { Key := some "label", Value := some (kv.1 ++ "=" ++ kv.2) }) := by
  simp [task.buildVisiting, task.build, task.withLabels, task.parameters, appendLabels_eq]

/-- C16: the built descriptor does not depend on the placement but for the
target node: for every task and every two nodes, the two builds agree on the
command, the container binding, the network, the resource claims and the label
parameters, and setting the target node of one to that of the other makes them
equal; when the two runs visit the labels in different orders, all of these
still agree and the label parameters agree up to order. -/
theorem build_placement_independent (t : task) (node1 node2 : String) :
    (t.build node1).Command = (t.build node2).Command ∧
    (t.build node1).Container = (t.build node2).Container ∧
    (t.build node1).network = (t.build node2).network ∧
    (t.build node1).Resources = (t.build node2).Resources ∧
    (t.build node1).parameters = (t.build node2).parameters ∧
    { t.build node1 with SlaveId := (t.build node2).SlaveId } = t.build node2 ∧
    (∀ visit1 visit2 : List (String × String),
      visit1.Perm t.config.Labels → visit2.Perm t.config.Labels →
      (t.buildVisiting node1 visit1).Command = (t.buildVisiting node2 visit2).Command ∧
      (t.buildVisiting node1 visit1).containerType
        = (t.buildVisiting node2 visit2).containerType ∧
      (t.buildVisiting node1 visit1).image = (t.buildVisiting node2 visit2).image ∧
      (t.buildVisiting node1 visit1).network = (t.buildVisiting node2 visit2).network ∧
      (t.buildVisiting node1 visit1).Resources = (t.buildVisiting node2 visit2).Resources ∧
      ((t.buildVisiting node1 visit1).parameters.Perm
        (t.buildVisiting node2 visit2).parameters)) := by
  refine ⟨rfl, rfl, rfl, rfl, rfl, rfl, ?_⟩
  intro visit1 visit2 h1 h2
  refine ⟨rfl, rfl, rfl, rfl, rfl, ?_⟩
  rw [buildVisiting_parameters, buildVisiting_parameters]
  exact (h1.trans h2.symm).map _

/-- C16 at two nodes and two runs that visit the two labels of the sample task
in opposite orders: the label parameters agree up to order. -/
theorem build_placement_independent_witness :
    ((sampleTask.buildVisiting "node-1" sampleTask.config.Labels).parameters.Perm
      (sampleTask.buildVisiting "node-2" sampleTask.config.Labels.reverse).parameters) :=
  ((build_placement_independent sampleTask "node-1" "node-2").2.2.2.2.2.2
    sampleTask.config.Labels sampleTask.config.Labels.reverse
    (List.Perm.refl _) (List.reverse_perm _)).2.2.2.2.2

/-- C17, as stated, fails at the command vector with an empty first element and
one more element: the executable is unset, and the arguments are set. -/
theorem build_empty_first_counterexample :
    ((sampleTask.withCmd ["", "-c"]).build "node-1").Command
      = some { Shell := some false, Value := none, Arguments := ["-c"] } ∧
    ((sampleTask.withCmd ["", "-c"]).build "node-1").Command
      ≠ some { Shell := some false, Value := none, Arguments := [] } := by
  decide

/-- C17, amended: for every command vector whose first element is the empty
string, `build` leaves the executable unset, and the arguments are the
remaining elements: none for a vector of one element, and all elements after
the first for a longer vector. -/
theorem build_empty_first (t : task) (slaveID : String) (rest : List String) :
    ((t.withCmd ("" :: rest)).build slaveID).Command
      = some { Shell := some false, Value := none, Arguments := rest } := by
  cases rest with
  | nil => simp [task.build, task.withCmd]
  | cons a rest => simp [task.build, task.withCmd]

/-! ## Injectivity of the identity and of the label serialization -/

/-- C18: with random suffixes of twelve hexadecimal digits, the identity that
`newTask` builds determines the display name and the suffix: equal identities
come from equal names and equal suffixes, also when a name is empty. -/
theorem newTask_ID_injective (reserved : String → String) (config1 config2 : ContainerConfig)
    (name1 name2 randomID1 randomID2 : String)
    (h1 : isShortID randomID1) (h2 : isShortID randomID2)
    (h : (newTask reserved config1 name1 randomID1).1.ID
      = (newTask reserved config2 name2 randomID2).1.ID) :
    name1 = name2 ∧ randomID1 = randomID2 := by
  rw [newTask_ID_eq, newTask_ID_eq] at h
  have l1 : randomID1.data.length = 12 := h1.1
  have l2 : randomID2.data.length = 12 := h2.1
  by_cases e1 : name1 = "" <;> by_cases e2 : name2 = ""
  · simp only [e1, e2, ne_eq, not_true_eq_false, if_false] at h
    exact ⟨by rw [e1, e2], h⟩
  · simp only [e1, e2, ne_eq, not_true_eq_false, not_false_eq_true, if_false, if_true] at h
    have hd := congrArg String.data h
    simp only [string_append_data] at hd
    have hl := congrArg List.length hd
    simp only [List.length_append, List.length_singleton] at hl
    exfalso
    omega
  · simp only [e1, e2, ne_eq, not_true_eq_false, not_false_eq_true, if_false, if_true] at h
    have hd := congrArg String.data h
    simp only [string_append_data] at hd
    have hl := congrArg List.length hd
    simp only [List.length_append, List.length_singleton] at hl
    exfalso
    omega
  · simp only [e1, e2, ne_eq, not_false_eq_true, if_true] at h
    have hd := congrArg String.data h
    simp only [string_append_data] at hd
    have hinj := List.append_inj' hd (by rw [l1, l2])
    have hn : name1.data = name2.data := by
      have := List.append_inj' hinj.1 rfl
      exact this.1
    exact ⟨string_eq_of_data hn, string_eq_of_data hinj.2⟩

/-- C18 at the name "web" and one suffix of twelve hexadecimal digits. -/
theorem newTask_ID_injective_witness :
    isShortID "0123456789ab" ∧
    (newTask id sampleConfig "web" "0123456789ab").1.ID = "web.0123456789ab" ∧
    ("web" : String) = "web" ∧ ("0123456789ab" : String) = "0123456789ab" :=
  ⟨by decide, by decide,
    newTask_ID_injective id sampleConfig sampleConfig "web" "web" "0123456789ab" "0123456789ab"
      (by decide) (by decide) rfl⟩

/-! ## Building twice -/

theorem appendedClaims_ne_nil_iff (config : ContainerConfig) :
    appendedClaims config ≠ [] ↔ (0 < config.CpuShares ∨ 0 < config.Memory) := by
  unfold appendedClaims
  by_cases h1 : config.CpuShares > 0 <;> by_cases h2 : config.Memory > 0 <;> simp [h1, h2]

/-- C19: `build` appends to the resource list: for every prior list, the list
after `build` is the prior list, then the claim named "cpus" if the share count
is positive, then the claim named "mem" if the memory limit is positive; a
second `build` appends the same claims once more, so the two lists differ
exactly when a claim is appended; the command, the container binding and the
label parameters are rebuilt and are the same after one and after two builds
(the label parameters up to order when the runs visit the labels in different
orders). -/
theorem build_appends_resources (t : task) (node1 node2 : String) (prior : List Resource) :
    ((t.withResources prior).build node1).Resources
      = prior ++
        (if t.config.CpuShares > 0 then
          [NewScalarResource "cpus" (float64 t.config.CpuShares)] else []) ++
        (if t.config.Memory > 0 then
          [NewScalarResource "mem" (float64 ((t.config.Memory.tdiv 1024).tdiv 1024))]
          else []) ∧
    (((t.withResources prior).build node1).build node2).Resources
      = prior ++ appendedClaims t.config ++ appendedClaims t.config ∧
    ((((t.withResources prior).build node1).build node2).Resources
        ≠ ((t.withResources prior).build node1).Resources
      ↔ (0 < t.config.CpuShares ∨ 0 < t.config.Memory)) ∧
    (((t.withResources prior).build node1).build node2).Command
      = ((t.withResources prior).build node1).Command ∧
    (((t.withResources prior).build node1).build node2).Container
      = ((t.withResources prior).build node1).Container ∧
    (((t.withResources prior).build node1).build node2).parameters
      = ((t.withResources prior).build node1).parameters ∧
    (∀ visit1 visit2 : List (String × String),
      visit1.Perm t.config.Labels → visit2.Perm t.config.Labels →
      ((((t.withResources prior).buildVisiting node1 visit1).buildVisiting node2
          visit2).parameters.Perm
        ((t.withResources prior).buildVisiting node1 visit1).parameters)) := by
  have hr1 : ((t.withResources prior).build node1).Resources
      = prior ++ appendedClaims t.config := build_Resources (t.withResources prior) node1
  have hr2 : (((t.withResources prior).build node1).build node2).Resources
      = prior ++ appendedClaims t.config ++ appendedClaims t.config := by
    rw [build_Resources, hr1]
    rfl
  refine ⟨?_, hr2, ?_, rfl, rfl, rfl, ?_⟩
  · rw [hr1, List.append_assoc]
    rfl
  · rw [hr2, hr1, ← appendedClaims_ne_nil_iff]
    constructor
    · intro h hnil
      apply h
      rw [hnil, List.append_nil]
    · intro h heq
      apply h
      have := congrArg List.length heq
      simp only [List.length_append] at this
      exact List.length_eq_zero.mp (by omega)
  · intro visit1 visit2 h1 h2
    rw [buildVisiting_parameters, buildVisiting_parameters]
    exact (h2.trans h1.symm).map _

/-- C19 at the sample task, built twice, the second run visiting the labels in
the opposite order: the label parameters agree up to order. -/
theorem build_appends_resources_witness :
    (((sampleTask.withResources []).buildVisiting "node-1"
        sampleTask.config.Labels).buildVisiting "node-2"
        sampleTask.config.Labels.reverse).parameters.Perm
      ((sampleTask.withResources []).buildVisiting "node-1" sampleTask.config.Labels).parameters :=
  (build_appends_resources sampleTask "node-1" "node-2" []).2.2.2.2.2.2
    sampleTask.config.Labels sampleTask.config.Labels.reverse
    (List.Perm.refl _) (List.reverse_perm _)

/-! ## The serialization of a label -/

theorem takeWhile_ne_eq_append (k v : List Char) (h : '=' ∉ k) :
    (k ++ '=' :: v).takeWhile (fun c => decide (c ≠ '=')) = k := by
  induction k with
  | nil => simp [List.takeWhile]
  | cons c k ih =>
    have hc : c ≠ '=' := fun e => h (by simp [e])
    have hk : '=' ∉ k := fun e => h (List.mem_cons_of_mem _ e)
    simpa [List.takeWhile, hc] using ih hk

theorem dropWhile_ne_eq_append (k v : List Char) (h : '=' ∉ k) :
    (k ++ '=' :: v).dropWhile (fun c => decide (c ≠ '=')) = '=' :: v := by
  induction k with
  | nil => simp [List.dropWhile]
  | cons c k ih =>
    have hc : c ≠ '=' := fun e => h (by simp [e])
    have hk : '=' ∉ k := fun e => h (List.mem_cons_of_mem _ e)
    simpa [List.dropWhile, hc] using ih hk

theorem splitAtFirstEq_serialized (key value : String) (h : '=' ∉ key.data) :
    splitAtFirstEq (key ++ "=" ++ value) = (key, value) := by
  have hd : (key ++ "=" ++ value).data = key.data ++ '=' :: value.data := by
    simp [string_append_data]
  unfold splitAtFirstEq
  rw [hd, takeWhile_ne_eq_append _ _ h, dropWhile_ne_eq_append _ _ h]
  rfl

theorem build_parameters_single (t : task) (slaveID key value : String) :
    ((t.withLabels [(key, value)]).build slaveID).parameters
      = [{ Key := some "label", Value := some (key ++ "=" ++ value) }] := by
  rw [build_parameters]
  rfl

/-- C20: the serialization `key ++ "=" ++ value` of a label can be undone when
the key holds no equals sign: the split of the parameter value at its first
equals sign is the pair, and label pairs with such keys that give the same
parameter are the same pair; without the restriction on the keys two different
pairs give the same parameter. -/
theorem label_serialization_injective (t : task) (slaveID : String) :
    (∀ key value : String, '=' ∉ key.data →
      ∃ serialized, ((t.withLabels [(key, value)]).build slaveID).parameters
          = [{ Key := some "label", Value := some serialized }] ∧
        splitAtFirstEq serialized = (key, value)) ∧
    (∀ k1 v1 k2 v2 : String, '=' ∉ k1.data → '=' ∉ k2.data →
      ((t.withLabels [(k1, v1)]).build slaveID).parameters
        = ((t.withLabels [(k2, v2)]).build slaveID).parameters →
      k1 = k2 ∧ v1 = v2) ∧
    (((t.withLabels [("a=", "b")]).build slaveID).parameters
        = ((t.withLabels [("a", "=b")]).build slaveID).parameters ∧
      (("a=", "b") : String × String) ≠ ("a", "=b")) := by
  refine ⟨?_, ?_, ?_, by decide⟩
  · intro key value h
    exact ⟨_, build_parameters_single t slaveID key value, splitAtFirstEq_serialized key value h⟩
  · intro k1 v1 k2 v2 h1 h2 h
    rw [build_parameters_single, build_parameters_single] at h
    have hs : k1 ++ "=" ++ v1 = k2 ++ "=" ++ v2 := by
      simpa using h
    have hp := congrArg splitAtFirstEq hs
    rw [splitAtFirstEq_serialized _ _ h1, splitAtFirstEq_serialized _ _ h2] at hp
    exact ⟨congrArg Prod.fst hp, congrArg Prod.snd hp⟩
  · rw [build_parameters_single, build_parameters_single]
    decide

/-- C20 at the pair ("env", "prod"): the parameter value splits back into the pair. -/
theorem label_serialization_injective_witness :
    ∃ serialized, ((sampleTask.withLabels [("env", "prod")]).build "node-1").parameters
        = [{ Key := some "label", Value := some serialized }] ∧
      splitAtFirstEq serialized = ("env", "prod") :=
  (label_serialization_injective sampleTask "node-1").1 "env" "prod" (by decide)

end Mesos
